import Mathlib

/-!
Verification of the modal-mcp server (src/modal_mcp/server.py) against its
natural-language specification.  The Python helpers are shallowly embedded as
executable Lean functions on `List Char` / `String`; tool functions that may
spawn a subprocess are embedded as functions returning a `ToolStep` that
records either the reply string (no subprocess) or the argument vector and
timeout of the spawned CLI invocation.
-/

namespace ModalMcp

/-- Characters of the Unicode box-drawing block U+2500..U+257F, the set matched
by the first regex of `_strip_rich` (`[─-╿]`). -/
def isBoxChar (c : Char) : Bool :=
  decide (0x2500 ≤ c.toNat) && decide (c.toNat ≤ 0x257f)

/-- First substitution of `_strip_rich`: `re.sub(r'[─-╿]', '', text)`.
Each match is a single character, so the substitution is a filter. -/
def stripBox (s : List Char) : List Char := s.filter (fun c => !(isBoxChar c))

/-- The `[0-9;]*m` part of the SGR regex `\x1b\[[0-9;]*m`: consume a maximal
run of digits and semicolons, then require a literal `m`.  Since `m` is not in
the repeated class, greedy matching with backtracking is equivalent to maximal
munch followed by the single-character check. -/
def sgrParams : List Char → Option (List Char)
  | [] => none
  | c :: rest =>
    if c.isDigit || c == ';' then sgrParams rest
    else if c == 'm' then some rest else none

/-- Attempt to match the SGR regex `\x1b\[[0-9;]*m` at the head of the list;
on success return the remainder after the match. -/
def sgrTail : List Char → Option (List Char)
  | c1 :: c2 :: rest => if c1 == '\x1b' && c2 == '[' then sgrParams rest else none
  | _ => none

/-- Second substitution of `_strip_rich`: `re.sub(r'\x1b\[[0-9;]*m', '', text)`.
`re.sub` scans left to right, removing each non-overlapping leftmost match and
resuming after it.  The fuel argument (instantiated with the input length,
which bounds the number of scan steps since every step consumes at least one
character) makes the recursion structural; with exhausted fuel the rest of the
input is returned unchanged. -/
def stripSGRAux : Nat → List Char → List Char
  | 0, s => s
  | _ + 1, [] => []
  | fuel + 1, c :: rest =>
    match sgrTail (c :: rest) with
    | some rest2 => stripSGRAux fuel rest2
    | none => c :: stripSGRAux fuel rest

def stripSGR (s : List Char) : List Char := stripSGRAux s.length s

/-- Third substitution of `_strip_rich`: `re.sub(r' {2,}', ' ', text)` —
every maximal run of two or more spaces becomes one space.  Emitting one space
and skipping the following spaces also leaves a single space unchanged, which
matches the regex (a lone space is not a match and is copied verbatim). -/
def collapseSpacesAux : Nat → List Char → List Char
  | 0, s => s
  | _ + 1, [] => []
  | fuel + 1, c :: rest =>
    if c == ' ' then c :: collapseSpacesAux fuel (rest.dropWhile (fun d => d == ' '))
    else c :: collapseSpacesAux fuel rest

def collapseSpaces (s : List Char) : List Char := collapseSpacesAux s.length s

/-- Python `str.splitlines` treats the two-character sequence `\r\n` as a
single line boundary.  We first merge each such pair (scanning left to right,
exactly the pairing `splitlines` uses) into a single `\n`, and then split on
single-character boundaries. -/
def crlfToLfAux : Nat → List Char → List Char
  | 0, s => s
  | _ + 1, [] => []
  | _ + 1, [c] => [c]
  | fuel + 1, c1 :: c2 :: rest =>
    if c1 == '\r' && c2 == '\n' then '\n' :: crlfToLfAux fuel rest
    else c1 :: crlfToLfAux fuel (c2 :: rest)

def crlfToLf (s : List Char) : List Char := crlfToLfAux s.length s

/-- The single-character line boundaries of Python `str.splitlines`:
`\n`, `\v`, `\f`, `\r`, FS, GS, RS, NEL, LINE SEPARATOR, PARAGRAPH SEPARATOR. -/
def isLineBoundary (c : Char) : Bool :=
  let n := c.toNat
  n == 0xa || n == 0xb || n == 0xc || n == 0xd || n == 0x1c || n == 0x1d ||
  n == 0x1e || n == 0x85 || n == 0x2028 || n == 0x2029

/-- Accumulator-based splitting on single-character boundaries; a trailing
boundary produces no final empty line, matching `str.splitlines`. -/
def splitlinesAux : List Char → List Char → List (List Char)
  | acc, [] => if acc.isEmpty then [] else [acc.reverse]
  | acc, c :: rest =>
    if isLineBoundary c then acc.reverse :: splitlinesAux [] rest
    else splitlinesAux (c :: acc) rest

/-- Python `text.splitlines()`. -/
def pySplitlines (s : List Char) : List (List Char) := splitlinesAux [] (crlfToLf s)

/-- Python whitespace as recognised by `str.strip()` / `str.isspace()`:
TAB..CR, space, FS..US, NEL, NBSP, and the Unicode space separators. -/
def pyIsSpace (c : Char) : Bool :=
  let n := c.toNat
  (decide (0x9 ≤ n) && decide (n ≤ 0xd)) || n == 0x20 ||
  (decide (0x1c ≤ n) && decide (n ≤ 0x1f)) || n == 0x85 || n == 0xa0 ||
  n == 0x1680 || (decide (0x2000 ≤ n) && decide (n ≤ 0x200a)) ||
  n == 0x2028 || n == 0x2029 || n == 0x202f || n == 0x205f || n == 0x3000

/-- Python `s.strip()`: drop whitespace from both ends. -/
def pyStrip (s : List Char) : List Char :=
  ((s.dropWhile pyIsSpace).reverse.dropWhile pyIsSpace).reverse

/-- Python `'\n'.join(lines)`. -/
def joinLines : List (List Char) → List Char
  | [] => []
  | l :: ls =>
    match ls with
    | [] => l
    | _ :: _ => l ++ '\n' :: joinLines ls

/-- The `_strip_rich` helper: strip box-drawing characters, strip ANSI SGR
escape sequences, collapse runs of two or more spaces, then strip each line,
drop empty lines and rejoin with `\n`. -/
def strip_rich (s : List Char) : List Char :=
  joinLines
    (((pySplitlines (collapseSpaces (stripSGR (stripBox s)))).map pyStrip).filter
      (fun l => !l.isEmpty))

/-- Decides whether the text contains an occurrence of the SGR regex
`\x1b\[[0-9;]*m` (checking a match at every suffix). -/
def containsSGR : List Char → Bool
  | [] => false
  | c :: rest => (sgrTail (c :: rest)).isSome || containsSGR rest

/-! ### Membership lemmas: every character of `_strip_rich`'s output is either
a `\n` inserted by the final join, or a non-box character of the input. -/

theorem mem_of_mem_dropWhile {p : Char → Bool} :
    ∀ {l : List Char} {c : Char}, c ∈ l.dropWhile p → c ∈ l := by
  intro l
  induction l with
  | nil => intro c hc; simp at hc
  | cons a rest ih =>
    intro c hc
    rw [List.dropWhile_cons] at hc
    split at hc
    · exact List.mem_cons_of_mem _ (ih hc)
    · exact hc

theorem mem_sgrParams : ∀ {s r : List Char}, sgrParams s = some r → ∀ c ∈ r, c ∈ s := by
  intro s
  induction s with
  | nil => intro r h; simp [sgrParams] at h
  | cons a rest ih =>
    intro r h c hc
    simp only [sgrParams] at h
    split at h
    · exact List.mem_cons_of_mem _ (ih h c hc)
    · split at h
      · injection h with h; subst h; exact List.mem_cons_of_mem _ hc
      · exact absurd h (by simp)

theorem mem_sgrTail : ∀ {s r : List Char}, sgrTail s = some r → ∀ c ∈ r, c ∈ s := by
  intro s r h c hc
  match s, h with
  | c1 :: c2 :: rest, h =>
    simp only [sgrTail] at h
    split at h
    · exact List.mem_cons_of_mem _ (List.mem_cons_of_mem _ (mem_sgrParams h c hc))
    · exact absurd h (by simp)

theorem mem_stripSGRAux : ∀ (fuel : Nat) (s : List Char), ∀ c ∈ stripSGRAux fuel s, c ∈ s := by
  intro fuel
  induction fuel with
  | zero => intro s c hc; simpa [stripSGRAux] using hc
  | succ n ih =>
    intro s c hc
    match s with
    | [] => simp [stripSGRAux] at hc
    | a :: rest =>
      simp only [stripSGRAux] at hc
      cases hsgr : sgrTail (a :: rest) with
      | some r2 => rw [hsgr] at hc; exact mem_sgrTail hsgr c (ih r2 c hc)
      | none =>
        rw [hsgr] at hc
        rcases List.mem_cons.mp hc with h | h
        · exact h ▸ List.mem_cons_self a rest
        · exact List.mem_cons_of_mem _ (ih rest c h)

theorem mem_collapseSpacesAux :
    ∀ (fuel : Nat) (s : List Char), ∀ c ∈ collapseSpacesAux fuel s, c ∈ s := by
  intro fuel
  induction fuel with
  | zero => intro s c hc; simpa [collapseSpacesAux] using hc
  | succ n ih =>
    intro s c hc
    match s with
    | [] => simp [collapseSpacesAux] at hc
    | a :: rest =>
      simp only [collapseSpacesAux] at hc
      split at hc
      all_goals
        rcases List.mem_cons.mp hc with h | h
        · exact h ▸ List.mem_cons_self a rest
        · first
          | exact List.mem_cons_of_mem _ (mem_of_mem_dropWhile (ih _ c h))
          | exact List.mem_cons_of_mem _ (ih rest c h)

theorem mem_crlfToLfAux :
    ∀ (fuel : Nat) (s : List Char), ∀ c ∈ crlfToLfAux fuel s, c ∈ s ∨ c = '\n' := by
  intro fuel
  induction fuel with
  | zero => intro s c hc; exact Or.inl (by simpa [crlfToLfAux] using hc)
  | succ n ih =>
    intro s c hc
    match s with
    | [] => simp [crlfToLfAux] at hc
    | [a] =>
      simp only [crlfToLfAux] at hc
      exact Or.inl hc
    | a :: b :: rest =>
      simp only [crlfToLfAux] at hc
      split at hc
      · rcases List.mem_cons.mp hc with h | h
        · exact Or.inr h
        · rcases ih rest c h with h' | h'
          · exact Or.inl (List.mem_cons_of_mem _ (List.mem_cons_of_mem _ h'))
          · exact Or.inr h'
      · rcases List.mem_cons.mp hc with h | h
        · exact Or.inl (h ▸ List.mem_cons_self a (b :: rest))
        · rcases ih (b :: rest) c h with h' | h'
          · exact Or.inl (List.mem_cons_of_mem _ h')
          · exact Or.inr h'

theorem mem_splitlinesAux :
    ∀ (s acc l : List Char), l ∈ splitlinesAux acc s → ∀ c ∈ l, c ∈ acc ∨ c ∈ s := by
  intro s
  induction s with
  | nil =>
    intro acc l hl c hc
    simp only [splitlinesAux] at hl
    split at hl
    · simp at hl
    · simp only [List.mem_singleton] at hl
      subst hl
      exact Or.inl (by simpa using hc)
  | cons a rest ih =>
    intro acc l hl c hc
    simp only [splitlinesAux] at hl
    split at hl
    · rcases List.mem_cons.mp hl with h | h
      · subst h; exact Or.inl (by simpa using hc)
      · rcases ih [] l h c hc with h' | h'
        · simp at h'
        · exact Or.inr (List.mem_cons_of_mem _ h')
    · rcases ih (a :: acc) l hl c hc with h' | h'
      · rcases List.mem_cons.mp h' with h'' | h''
        · exact Or.inr (h'' ▸ List.mem_cons_self a rest)
        · exact Or.inl h''
      · exact Or.inr (List.mem_cons_of_mem _ h')

theorem mem_pyStrip {s : List Char} {c : Char} (h : c ∈ pyStrip s) : c ∈ s := by
  unfold pyStrip at h
  rw [List.mem_reverse] at h
  have h1 := mem_of_mem_dropWhile h
  rw [List.mem_reverse] at h1
  exact mem_of_mem_dropWhile h1

theorem mem_joinLines :
    ∀ (L : List (List Char)) (c : Char), c ∈ joinLines L → c = '\n' ∨ ∃ l ∈ L, c ∈ l := by
  intro L
  induction L with
  | nil => intro c hc; simp [joinLines] at hc
  | cons l ls ih =>
    intro c hc
    match ls with
    | [] => exact Or.inr ⟨l, by simp, by simpa [joinLines] using hc⟩
    | l' :: ls' =>
      simp only [joinLines] at hc
      rcases List.mem_append.mp hc with h | h
      · exact Or.inr ⟨l, by simp, h⟩
      · rcases List.mem_cons.mp h with h' | h'
        · exact Or.inl h'
        · rcases ih c h' with h'' | ⟨l2, hl2, hc2⟩
          · exact Or.inl h''
          · exact Or.inr ⟨l2, List.mem_cons_of_mem _ hl2, hc2⟩

theorem mem_strip_rich {s : List Char} {c : Char} (h : c ∈ strip_rich s) :
    c = '\n' ∨ (c ∈ s ∧ isBoxChar c = false) := by
  unfold strip_rich at h
  rcases mem_joinLines _ _ h with h' | ⟨l, hl, hc⟩
  · exact Or.inl h'
  · have hl' := (List.mem_filter.mp hl).1
    rcases List.mem_map.mp hl' with ⟨l0, hl0, rfl⟩
    have hc0 : c ∈ l0 := mem_pyStrip hc
    unfold pySplitlines at hl0
    rcases mem_splitlinesAux _ [] l0 hl0 c hc0 with h2 | h2
    · simp at h2
    · rcases mem_crlfToLfAux _ _ c h2 with h3 | h3
      · have h4 := mem_collapseSpacesAux _ _ c h3
        have h5 := mem_stripSGRAux _ _ c h4
        have h6 := List.mem_filter.mp h5
        exact Or.inr ⟨h6.1, by simpa using h6.2⟩
      · exact Or.inl h3

theorem esc_mem_of_containsSGR : ∀ {t : List Char}, containsSGR t = true → '\x1b' ∈ t := by
  intro t
  induction t with
  | nil => simp [containsSGR]
  | cons a rest ih =>
    intro h
    simp only [containsSGR, Bool.or_eq_true] at h
    rcases h with h | h
    · cases rest with
      | nil => simp [sgrTail] at h
      | cons b rest' =>
        simp only [sgrTail] at h
        split at h
        · rename_i hcond
          have ha : a = '\x1b' := by
            have := (Bool.and_eq_true _ _).mp hcond |>.1
            exact beq_iff_eq.mp this
          exact ha ▸ List.mem_cons_self a (b :: rest')
        · simp at h
    · exact List.mem_cons_of_mem _ (ih h)

theorem noESC_strip_rich {s : List Char} (h : '\x1b' ∉ s) :
    containsSGR (strip_rich s) = false := by
  cases hb : containsSGR (strip_rich s) with
  | false => rfl
  | true =>
    have hm := esc_mem_of_containsSGR hb
    rcases mem_strip_rich hm with h1 | ⟨h1, _⟩
    · exact absurd h1 (by decide)
    · exact absurd h1 h

/-- Claim C3 (amended): for every input, `_strip_rich` returns text containing
no box-drawing character (U+2500..U+257F), and — being embedded here as a total
function — it never throws; when the input contains no ESC character (U+001B)
the result also contains no ANSI SGR escape sequence.  The unconditional no-SGR
part of the original claim fails: the single substitution pass can splice a new
SGR sequence out of the text surrounding a removed match. -/
theorem strip_rich_no_box_and_no_new_sgr (s : List Char) :
    (∀ c ∈ strip_rich s, isBoxChar c = false) ∧
    ('\x1b' ∉ s → containsSGR (strip_rich s) = false) := by
  constructor
  · intro c hc
    rcases mem_strip_rich hc with h | ⟨_, h⟩
    · subst h; decide
    · exact h
  · exact noESC_strip_rich

/-- Witness for the amended claim C3 at a concrete ESC-free input. -/
theorem strip_rich_no_box_and_no_new_sgr_witness :
    ('\x1b' ∉ "a  b".toList) ∧ containsSGR (strip_rich "a  b".toList) = false :=
  ⟨by decide, (strip_rich_no_box_and_no_new_sgr "a  b".toList).2 (by decide)⟩

/-- Claim C3 counterexample: the input `"\x1b[\x1b[mm"` contains an ANSI SGR
escape sequence, yet the output of `_strip_rich` on it (namely `"\x1b[m"`)
still contains one: removing the inner match `"\x1b[m"` splices the
surrounding `"\x1b["` and `"m"` into a new SGR sequence. -/
theorem strip_rich_sgr_counterexample :
    containsSGR ("\x1b[\x1b[mm".toList) = true ∧
    containsSGR (strip_rich "\x1b[\x1b[mm".toList) = true := by decide

/-! ### The sandbox output parse of `run_sandbox_command` -/

/-- Python `s.split(sep)` for a nonempty separator: split at each leftmost
non-overlapping occurrence.  Fuel (instantiated with the input length, an
upper bound on the scan steps) makes the recursion structural. -/
def splitOnAux (sep : List Char) : Nat → List Char → List Char → List (List Char)
  | 0, acc, rest => [acc.reverse ++ rest]
  | _ + 1, acc, [] => [acc.reverse]
  | fuel + 1, acc, c :: rest =>
    if sep.isPrefixOf (c :: rest) then
      acc.reverse :: splitOnAux sep fuel [] (List.drop sep.length (c :: rest))
    else splitOnAux sep fuel (c :: acc) rest

def pySplit (s sep : List Char) : List (List Char) := splitOnAux sep s.length [] s

/-- Python `sub in s` (substring containment): a prefix match at some suffix. -/
def isSubstringAux (sub : List Char) : Nat → List Char → Bool
  | 0, rest => sub.isPrefixOf rest
  | _ + 1, [] => sub.isEmpty
  | fuel + 1, c :: rest => sub.isPrefixOf (c :: rest) || isSubstringAux sub fuel rest

def isSubstring (sub s : List Char) : Bool := isSubstringAux sub s.length s

def stdoutMarker : List Char := "===STDOUT===".toList

def stderrMarker : List Char := "===STDERR===".toList

/-- The split key the source uses for the stderr section:
`output.split("===STDERR===")[1].split("===RC===")[0]`.  Note that it is the
literal `"==="` immediately after `"===RC"`, not the `===RC=<code>===` marker
the generated script actually prints. -/
def rcSplitKey : List Char := "===RC===".toList

/-- The marker-parsing step of `run_sandbox_command`: from the child process's
stdout, recover the sandbox stdout and stderr sections.  Mirrors

    sb_out = sb_err = ""
    if "===STDOUT===" in output:
        sb_out = output.split("===STDOUT===")[1].split("===STDERR===")[0].strip()
    if "===STDERR===" in output:
        sb_err = output.split("===STDERR===")[1].split("===RC===")[0].strip()

(the guarded index `[1]` exists whenever the marker occurs, so `getD` with a
default is exact). -/
def parseSandboxOutput (output : List Char) : List Char × List Char :=
  let sb_out :=
    if isSubstring stdoutMarker output then
      pyStrip ((pySplit ((pySplit output stdoutMarker).getD 1 []) stderrMarker).getD 0 [])
    else []
  let sb_err :=
    if isSubstring stderrMarker output then
      pyStrip ((pySplit ((pySplit output stderrMarker).getD 1 []) rcSplitKey).getD 0 [])
    else []
  (sb_out, sb_err)

/-- A child output following the generated script's wire format: the three
markers `===STDOUT===`, `===STDERR===`, `===RC=<code>===` in order, with
the sandbox printing `hello` on stdout and `boom` on stderr and exiting 0. -/
def wireOutput : List Char :=
  "===STDOUT===\nhello\n===STDERR===\nboom\n===RC=0===\n".toList

/-- Claim C2 (code bug): on a well-formed child output the parse recovers the
stdout section correctly, but the stderr section retains the `===RC=0===`
marker line: the code splits on the literal `"===RC==="`, a string that never
occurs in the `===RC=<code>===` marker its own generated script prints, so the
split never cuts and the claimed exclusion of the RC marker fails. -/
theorem parseSandboxOutput_retains_rc_marker :
    (parseSandboxOutput wireOutput).1 = "hello".toList ∧
    (parseSandboxOutput wireOutput).2 = "boom\n===RC=0===".toList ∧
    (parseSandboxOutput wireOutput).2 ≠ "boom".toList := by decide

/-! ### The `_run` process runner -/

/-- The observable result of one completed subprocess: exit code and the
captured stdout / stderr texts (`text=True`, so strings). -/
structure ProcResult where
  returncode : Int
  stdout : List Char
  stderr : List Char

/-- How the single subprocess call inside `_run` can end: normal completion,
`subprocess.TimeoutExpired`, or `FileNotFoundError` for a missing binary. -/
inductive ChildOutcome where
  | completed (r : ProcResult)
  | timedOut
  | notFound

/-- The value `_run` returns, plus whether the child was killed (on
`TimeoutExpired`, `subprocess.run` kills the child before raising). -/
structure RunOutcome where
  success : Bool
  text : List Char
  killed : Bool

/-- The cleaned stderr of `_run`:
`err = _strip_rich(r.stderr.strip()) if r.stderr else ""`. -/
def runCleanErr (r : ProcResult) : List Char :=
  if r.stderr ≠ [] then strip_rich (pyStrip r.stderr) else []

/-- The body of `_run` as a function of the child's outcome:

    out = r.stdout.strip()
    err = _strip_rich(r.stderr.strip()) if r.stderr else ""
    if r.returncode == 0:
        return True, out if out else (err or "OK")
    return False, f"Error: {err}" if err else f"Command failed (exit {r.returncode})"

with the two `except` arms returning the fixed timeout and not-found
messages. -/
def run_model (timeout : Int) (oc : ChildOutcome) : RunOutcome :=
  match oc with
  | .completed r =>
    let out := pyStrip r.stdout
    let err := runCleanErr r
    if r.returncode = 0 then
      ⟨true, if out ≠ [] then out else (if err ≠ [] then err else "OK".toList), false⟩
    else
      ⟨false,
        if err ≠ [] then "Error: ".toList ++ err
        else "Command failed (exit ".toList ++ (toString r.returncode).toList ++ ")".toList,
        false⟩
  | .timedOut =>
    ⟨false, "Command timed out after ".toList ++ (toString timeout).toList ++ "s".toList, true⟩
  | .notFound =>
    ⟨false, "Modal CLI not found. Install: pip install modal && python3 -m modal setup".toList,
      false⟩

/-- Claim C6: `_run` classifies by exit code — code 0 yields success; a
nonzero code yields failure whose message carries the cleaned (box-drawing-
and ANSI-stripped) stderr text, or the fixed message naming the exit code
when stderr is empty. -/
theorem run_classifies_by_exit_code (t : Int) (r : ProcResult) :
    (r.returncode = 0 → (run_model t (.completed r)).success = true) ∧
    (r.returncode ≠ 0 →
      (run_model t (.completed r)).success = false ∧
      (runCleanErr r ≠ [] →
        (run_model t (.completed r)).text = "Error: ".toList ++ runCleanErr r) ∧
      (r.stderr = [] →
        (run_model t (.completed r)).text =
          "Command failed (exit ".toList ++ (toString r.returncode).toList ++ ")".toList)) := by
  refine ⟨fun h0 => ?_, fun hne => ⟨?_, fun herr => ?_, fun hemp => ?_⟩⟩
  · simp [run_model, h0]
  · simp [run_model, hne]
  · simp [run_model, hne, herr]
  · have : runCleanErr r = [] := by simp [runCleanErr, hemp]
    simp [run_model, hne, this]

/-- Witness for claim C6 at a concrete failing invocation. -/
theorem run_classifies_by_exit_code_witness :
    (run_model 120 (.completed ⟨1, [], "boom".toList⟩)).success = false ∧
    (run_model 120 (.completed ⟨0, "out".toList, []⟩)).success = true :=
  ⟨((run_classifies_by_exit_code 120 ⟨1, [], "boom".toList⟩).2 (by decide)).1,
    (run_classifies_by_exit_code 120 ⟨0, "out".toList, []⟩).1 rfl⟩

/-- Claim C7: when the child exceeds the timeout, `_run` kills it and returns
failure with the fixed message `Command timed out after {timeout}s`; the
embedding is a total function, so no exception escapes and no other result is
produced. -/
theorem run_timeout_fixed_message (t : Int) :
    run_model t .timedOut =
      ⟨false, "Command timed out after ".toList ++ (toString t).toList ++ "s".toList, true⟩ :=
  rfl

/-- Claim C10: on exit code 0 with empty (after stripping) stdout, `_run`
returns the cleaned stderr, or the literal `OK` when that is empty too — and a
successful `_run` never returns an empty string. -/
theorem run_success_never_empty (t : Int) (r : ProcResult) (h0 : r.returncode = 0) :
    (run_model t (.completed r)).text ≠ [] ∧
    (pyStrip r.stdout = [] →
      (run_model t (.completed r)).text =
        (if runCleanErr r ≠ [] then runCleanErr r else "OK".toList)) := by
  constructor
  · simp only [run_model, h0, if_pos]
    split
    · rename_i hout; simpa using hout
    · split
      · rename_i herr; simpa using herr
      · simp
  · intro hout
    simp [run_model, h0, hout]

/-- Witness for claim C10: whitespace-only stdout and empty stderr give `OK`. -/
theorem run_success_never_empty_witness :
    (run_model 120 (.completed ⟨0, "  ".toList, []⟩)).text ≠ [] ∧
    (run_model 120 (.completed ⟨0, "  ".toList, []⟩)).text = "OK".toList := by
  have h := run_success_never_empty 120 ⟨0, "  ".toList, []⟩ rfl
  exact ⟨h.1, by rw [h.2 (by decide)]; decide⟩

/-! ### `_streaming_capture`: duration clamping and output truncation -/

/-- The middle-truncation marker `f"{head}\n\n... [truncated middle] ...\n\n{tail}"`
inserts between head and tail. -/
def truncMarker : List Char := "\n\n... [truncated middle] ...\n\n".toList

/-- The truncation step of `_streaming_capture`:

    if len(out) > 30000:
        head, tail = out[:5000], out[-25000:]
        out = f"{head}\n\n... [truncated middle] ...\n\n{tail}"

(`out[-25000:]` is the last 25000 characters, i.e. `drop (len - 25000)`). -/
def truncateOutput (out : List Char) : List Char :=
  if 30000 < out.length then
    out.take 5000 ++ truncMarker ++ out.drop (out.length - 25000)
  else out

/-- Claim C4: output longer than 30000 characters is replaced by its first
5000 characters, the middle-truncation marker, and its last 25000 characters;
the result has length exactly 30030, in particular at most 30100. -/
theorem truncateOutput_bounds (out : List Char) (h : 30000 < out.length) :
    truncateOutput out = out.take 5000 ++ truncMarker ++ out.drop (out.length - 25000) ∧
    (truncateOutput out).length = 30030 ∧ (truncateOutput out).length ≤ 30100 := by
  have heq : truncateOutput out =
      out.take 5000 ++ truncMarker ++ out.drop (out.length - 25000) := by
    unfold truncateOutput
    rw [if_pos h]
  have hmark : truncMarker.length = 30 := by decide
  have hlen : (truncateOutput out).length = 30030 := by
    rw [heq]
    simp only [List.length_append, List.length_take, List.length_drop, hmark]
    omega
  exact ⟨heq, hlen, by omega⟩

/-- Witness for claim C4 on a concrete 30001-character output. -/
theorem truncateOutput_bounds_witness :
    30000 < (List.replicate 30001 'a').length ∧
    (truncateOutput (List.replicate 30001 'a')).length = 30030 :=
  ⟨by rw [List.length_replicate]; omega,
    (truncateOutput_bounds (List.replicate 30001 'a')
      (by rw [List.length_replicate]; omega)).2.1⟩

/-- `duration = min(max(duration, 3), 60)`, the first statement of
`_streaming_capture`, executed before `Popen`. -/
def clampDuration (duration : Int) : Int := min (max duration 3) 60

/-- The resolved CLI binary; `shutil.which` is environment-dependent, so the
model uses its source-level fallback value `"modal"`. -/
def modalBin : String := "modal"

/-- The subprocess interaction `_streaming_capture` sets up before reading any
output: the spawned command `[_MODAL_BIN, *args]` and the wall-clock wait
passed to `proc.communicate(timeout=duration)` — the already-clamped value. -/
structure StreamPlan where
  cmd : List String
  waitSecs : Int

def streamingCapturePlan (args : List String) (duration : Int) : StreamPlan :=
  ⟨modalBin :: args, clampDuration duration⟩

/-- Python truthiness of an optional string argument:
`if environment: args.extend(["--env", environment])`. -/
def envArgs : Option String → List String
  | some e => if e = "" then [] else ["--env", e]
  | none => []

/-- The `app_logs` tool: `_streaming_capture("app", "logs", name, --env?)`. -/
def app_logs (app_name_or_id : String) (duration : Int) (environment : Option String) :
    StreamPlan :=
  streamingCapturePlan (["app", "logs", app_name_or_id] ++ envArgs environment) duration

/-- The `container_logs` tool: `_streaming_capture("container", "logs", id)`. -/
def container_logs (container_id : String) (duration : Int) : StreamPlan :=
  streamingCapturePlan ["container", "logs", container_id] duration

/-- Claim C5: the effective capture duration of `_streaming_capture` (and of
`app_logs` and `container_logs`) is the requested duration clamped into
[3, 60], computed before the subprocess is spawned, and in-range durations
pass through unchanged. -/
theorem streaming_capture_clamps (args : List String) (d : Int) (a cid : String)
    (e : Option String) :
    3 ≤ (streamingCapturePlan args d).waitSecs ∧
    (streamingCapturePlan args d).waitSecs ≤ 60 ∧
    (3 ≤ d → d ≤ 60 → (streamingCapturePlan args d).waitSecs = d) ∧
    (app_logs a d e).waitSecs = clampDuration d ∧
    (container_logs cid d).waitSecs = clampDuration d := by
  refine ⟨?_, ?_, ?_, rfl, rfl⟩ <;>
    simp only [streamingCapturePlan, clampDuration, min_def, max_def] <;>
    intros <;> split_ifs <;> omega

/-- Witness for claim C5: 70 clamps to 60, 1 clamps to 3, 10 passes through. -/
theorem streaming_capture_clamps_witness :
    (streamingCapturePlan ["app"] 10).waitSecs = 10 ∧
    (streamingCapturePlan ["app"] 70).waitSecs ≤ 60 ∧
    3 ≤ (streamingCapturePlan ["app"] 1).waitSecs :=
  ⟨(streaming_capture_clamps ["app"] 10 "a" "c" none).2.2.1 (by omega) (by omega),
    (streaming_capture_clamps ["app"] 70 "a" "c" none).2.1,
    (streaming_capture_clamps ["app"] 1 "a" "c" none).1⟩

/-! ### Tool functions: either an immediate reply (no subprocess) or one CLI
invocation via `_run`, recorded with its argument vector and timeout. -/

inductive ToolStep where
  | reply (msg : String)
  | call (args : List String) (timeout : Int)
deriving DecidableEq

/-- Whether the step spawns a subprocess. -/
def spawns : ToolStep → Bool
  | .reply _ => false
  | .call _ _ => true

/-- `delete_volume`: without `confirm=True` it is a guarded no-op. -/
def delete_volume (volume_name : String) (confirm : Bool) (environment : Option String) :
    ToolStep :=
  if !confirm then
    .reply "Safety check: set confirm=True to actually delete the volume. This cannot be undone."
  else .call (["volume", "delete", volume_name, "--yes"] ++ envArgs environment) 120

/-- `delete_secret`. -/
def delete_secret (secret_name : String) (confirm : Bool) (environment : Option String) :
    ToolStep :=
  if !confirm then
    .reply "Safety check: set confirm=True to actually delete the secret. This cannot be undone."
  else .call (["secret", "delete", secret_name, "--yes"] ++ envArgs environment) 120

/-- `delete_queue`. -/
def delete_queue (queue_name : String) (confirm : Bool) (environment : Option String) :
    ToolStep :=
  if !confirm then
    .reply "Safety check: set confirm=True to actually delete the queue."
  else .call (["queue", "delete", queue_name, "--yes"] ++ envArgs environment) 120

/-- `delete_dict`. -/
def delete_dict (dict_name : String) (confirm : Bool) (environment : Option String) :
    ToolStep :=
  if !confirm then
    .reply "Safety check: set confirm=True to actually delete the dict."
  else .call (["dict", "delete", dict_name, "--yes"] ++ envArgs environment) 120

/-- `delete_environment`. -/
def delete_environment (env_name : String) (confirm : Bool) : ToolStep :=
  if !confirm then
    .reply "Safety check: set confirm=True to actually delete the environment. All resources in it will be deleted."
  else .call ["environment", "delete", env_name, "--yes"] 120

/-- Claim C1: every destructive tool called with `confirm=False` (its default)
replies with its fixed safety-check string and spawns no subprocess, for every
choice of the other parameters. -/
theorem deletes_require_confirm (vn sn qn dn en : String)
    (e1 e2 e3 e4 : Option String) :
    delete_volume vn false e1 =
      .reply "Safety check: set confirm=True to actually delete the volume. This cannot be undone." ∧
    delete_secret sn false e2 =
      .reply "Safety check: set confirm=True to actually delete the secret. This cannot be undone." ∧
    delete_queue qn false e3 =
      .reply "Safety check: set confirm=True to actually delete the queue." ∧
    delete_dict dn false e4 =
      .reply "Safety check: set confirm=True to actually delete the dict." ∧
    delete_environment en false =
      .reply "Safety check: set confirm=True to actually delete the environment. All resources in it will be deleted." ∧
    spawns (delete_volume vn false e1) = false ∧
    spawns (delete_secret sn false e2) = false ∧
    spawns (delete_queue qn false e3) = false ∧
    spawns (delete_dict dn false e4) = false ∧
    spawns (delete_environment en false) = false :=
  ⟨rfl, rfl, rfl, rfl, rfl, rfl, rfl, rfl, rfl, rfl⟩

/-- `upload_to_volume`, over a filesystem modelled as the predicate `fs`
(Python `Path(local_path).exists()`). -/
def upload_to_volume (fs : String → Bool) (volume_name local_path remote_path : String)
    (force : Bool) (environment : Option String) : ToolStep :=
  if !(fs local_path) then .reply ("Error: Local path not found: " ++ local_path)
  else
    .call (["volume", "put", volume_name, local_path, remote_path] ++
      (if force then ["--force"] else []) ++ envArgs environment) 120

/-- Claim C8: a nonexistent local path makes `upload_to_volume` reply with an
error string naming the path, spawning no subprocess. -/
theorem upload_to_volume_missing_path (fs : String → Bool) (vn lp rp : String)
    (force : Bool) (e : Option String) (h : fs lp = false) :
    upload_to_volume fs vn lp rp force e = .reply ("Error: Local path not found: " ++ lp) ∧
    spawns (upload_to_volume fs vn lp rp force e) = false := by
  constructor <;> simp [upload_to_volume, h, spawns]

/-- Witness for claim C8 on a concrete empty filesystem. -/
theorem upload_to_volume_missing_path_witness :
    upload_to_volume (fun _ => false) "vol" "/tmp/data" "/" false none =
      .reply ("Error: Local path not found: " ++ "/tmp/data") :=
  (upload_to_volume_missing_path (fun _ => false) "vol" "/tmp/data" "/" false none rfl).1

/-! ### `deploy_app` and its `pathlib.PurePosixPath` helpers -/

/-- The root of a POSIX path as `pathlib` parses it: `/` for one or at least
three leading slashes, `//` for exactly two, empty otherwise. -/
def posixRoot : List Char → List Char
  | '/' :: '/' :: c :: _ => if c == '/' then ['/'] else ['/', '/']
  | '/' :: '/' :: [] => ['/', '/']
  | '/' :: _ => ['/']
  | _ => []

/-- `Path.is_absolute()` on POSIX: the path has a root. -/
def isAbsolutePath (p : String) : Bool := !(posixRoot p.toList).isEmpty

/-- The non-root components of a POSIX path: split on `/`, dropping empty
components and single dots (which `pathlib` normalises away). -/
def pathParts (p : String) : List (List Char) :=
  (pySplit p.toList ['/']).filter (fun part => !part.isEmpty && part != ['.'])

/-- `Path.name`: the final component (empty for a bare root or empty path). -/
def pathName (p : String) : List Char := (pathParts p).getLastD []

/-- The index of the last `.` in a name (Python `name.rfind('.')`), if any. -/
def lastDotIdxAux : List Char → Nat → Option Nat
  | [], _ => none
  | c :: rest, k =>
    match lastDotIdxAux rest (k + 1) with
    | some j => some j
    | none => if c == '.' then some k else none

/-- `Path.suffix`: `name[i:]` for `i = name.rfind('.')` when `0 < i < len(name) - 1`,
else the empty string. -/
def pathSuffix (p : String) : List Char :=
  let name := pathName p
  match lastDotIdxAux name 0 with
  | none => []
  | some i => if 0 < i ∧ i + 1 < name.length then name.drop i else []

/-- `str(path)`: root then the kept components joined with `/`; `.` when both
are empty. -/
def pathStr (p : String) : String :=
  let root := posixRoot p.toList
  let parts := pathParts p
  if root.isEmpty && parts.isEmpty then "."
  else root.asString ++ String.intercalate "/" (parts.map List.asString)

/-- `deploy_app`, over a filesystem modelled as the predicate `fs`
(`Path(app_path).exists()`):

    if not path.is_absolute(): return f"Error: Path must be absolute, got: {app_path}"
    if not path.exists():      return f"Error: File not found: {app_path}"
    if path.suffix != ".py":   return f"Error: Expected a .py file, got: {path.suffix}"
    args = ["deploy", str(path)] (+ --name / --env) ; _run(*args, timeout=300)
-/
def deploy_app (fs : String → Bool) (app_path : String)
    (name : Option String) (environment : Option String) : ToolStep :=
  if !(isAbsolutePath app_path) then
    .reply ("Error: Path must be absolute, got: " ++ app_path)
  else if !(fs app_path) then
    .reply ("Error: File not found: " ++ app_path)
  else if pathSuffix app_path ≠ ".py".toList then
    .reply ("Error: Expected a .py file, got: " ++ (pathSuffix app_path).asString)
  else
    .call (["deploy", pathStr app_path] ++
      (match name with
       | some n => if n = "" then [] else ["--name", n]
       | none => []) ++ envArgs environment) 300

/-- Claim C9: `deploy_app` validates before any subprocess runs — a relative
path replies with the must-be-absolute error, a wrong extension replies with
the extension error, and a subprocess is spawned only when the path is
absolute, exists, and ends in `.py`. -/
theorem deploy_app_validates (fs : String → Bool) (p : String)
    (nm e : Option String) :
    (isAbsolutePath p = false →
      deploy_app fs p nm e = .reply ("Error: Path must be absolute, got: " ++ p) ∧
      spawns (deploy_app fs p nm e) = false) ∧
    (isAbsolutePath p = true → fs p = true → pathSuffix p ≠ ".py".toList →
      deploy_app fs p nm e =
        .reply ("Error: Expected a .py file, got: " ++ (pathSuffix p).asString) ∧
      spawns (deploy_app fs p nm e) = false) ∧
    (spawns (deploy_app fs p nm e) = true →
      isAbsolutePath p = true ∧ fs p = true ∧ pathSuffix p = ".py".toList) := by
  refine ⟨fun habs => ?_, fun habs hfs hsuf => ?_, fun hsp => ?_⟩
  · constructor <;> simp [deploy_app, habs, spawns]
  · have hsuf' : ¬pathSuffix p = ['.', 'p', 'y'] := by simpa using hsuf
    constructor <;> simp [deploy_app, habs, hfs, hsuf', spawns]
  · by_cases habs : isAbsolutePath p
    · by_cases hfs : fs p
      · by_cases hsuf : pathSuffix p = ".py".toList
        · exact ⟨habs, hfs, hsuf⟩
        · have hsuf' : ¬pathSuffix p = ['.', 'p', 'y'] := by simpa using hsuf
          simp [deploy_app, habs, hfs, hsuf', spawns] at hsp
      · simp [deploy_app, habs, hfs, spawns] at hsp
    · simp [deploy_app, habs, spawns] at hsp

/-- Witness for claim C9: the spec's example `deploy_app("relative/path.py")`
and a wrong-extension absolute path. -/
theorem deploy_app_validates_witness :
    deploy_app (fun _ => true) "relative/path.py" none none =
      .reply ("Error: Path must be absolute, got: " ++ "relative/path.py") ∧
    deploy_app (fun _ => true) "/home/user/app.txt" none none =
      .reply ("Error: Expected a .py file, got: " ++ (pathSuffix "/home/user/app.txt").asString) :=
  ⟨((deploy_app_validates (fun _ => true) "relative/path.py" none none).1 (by decide)).1,
    ((deploy_app_validates (fun _ => true) "/home/user/app.txt" none none).2.1
      (by decide) rfl (by decide)).1⟩

end ModalMcp
